import Mathlib

/-! Shallow embedding of the mesh file I/O library
(`hifi3dface/third_party/ply.py`) and of the camera rig configuration module
(`src/camera/setup_single_camera.py`).

Modelling conventions:
* A file is modelled as its newline-stripped text lines plus the raw bytes
  that follow the textual header (`PFile`); each byte is a `Nat` below 256.
* Machine scalars are modelled by their bit patterns as natural numbers
  (a value of a `w`-byte dtype is a `Nat` below `2 ^ (8 * w)`); serialisation
  is explicit base-256 little/big-endian encoding.  Equality of bit patterns
  models numpy's numeric equality for same-dtype round trips.
* The writing platform is little-endian (`sys.byteorder == "little"`), so the
  byte-order prefix of the running system is `"<"`.
* Python string/bytes helpers (`split`, substring `in`, `startswith`,
  `endswith`, `int(...)`, `float(...)`) are modelled character-exactly below.
-/

/-- `charsLead pre l` is true when `pre` is an initial segment of `l`
(the character-list form of Python `startswith`). -/
def charsLead : List Char → List Char → Bool
  | [], _ => true
  | _ :: _, [] => false
  | a :: as, b :: bs => a == b && charsLead as bs

/-- Substring search: does `sub` occur contiguously inside the haystack? -/
def hasSubAux (sub : List Char) : List Char → Bool
  | [] => sub.isEmpty
  | c :: t => charsLead sub (c :: t) || hasSubAux sub t

/-- Python `sub in s` on `str`/`bytes`: substring containment. -/
def strHasSub (s sub : String) : Bool := hasSubAux sub.data s.data

/-- Python `s.startswith(pre)`. -/
def strStarts (s pre : String) : Bool := charsLead pre.data s.data

/-- Python `s.endswith(suf)`. -/
def strEnds (s suf : String) : Bool := charsLead suf.data.reverse s.data.reverse

/-- Worker for whitespace splitting: `cur` holds the characters of the token
in progress, in reverse. -/
def wsTokensGo (cur : List Char) : List Char → List (List Char)
  | [] => if cur.isEmpty then [] else [cur.reverse]
  | c :: t =>
    if c = ' ' then
      if cur.isEmpty then wsTokensGo [] t else cur.reverse :: wsTokensGo [] t
    else wsTokensGo (c :: cur) t

/-- Python `s.split()` (no separator): split on runs of spaces, no empty
tokens.  Header lines contain no other whitespace characters. -/
def wsTokens (l : List Char) : List (List Char) := wsTokensGo [] l

/-- Python `line.split()` producing strings. -/
def wsSplit (s : String) : List String := (wsTokens s.data).map String.mk

/-- Worker for splitting on a single-space separator, keeping empty fields
(Python `s.split(" ")`). -/
def sepTokensGo (cur : List Char) : List Char → List (List Char)
  | [] => [cur.reverse]
  | c :: t => if c = ' ' then cur.reverse :: sepTokensGo [] t else sepTokensGo (c :: cur) t

/-- Python `s.split(" ")` (explicit separator: empty fields are kept). -/
def sepSplit (s : String) : List String := (sepTokensGo [] s.data).map String.mk

/-- The decimal digit characters, by value. -/
def digitChar : Nat → Char
  | 0 => '0' | 1 => '1' | 2 => '2' | 3 => '3' | 4 => '4'
  | 5 => '5' | 6 => '6' | 7 => '7' | 8 => '8' | 9 => '9'
  | _ => '*'

/-- Fuelled worker for decimal printing (any fuel above `n` suffices, since
the argument shrinks by a factor of ten each step). -/
def natCharsAux : Nat → Nat → List Char
  | 0, _ => []
  | fuel + 1, n =>
    if n < 10 then [digitChar n]
    else natCharsAux fuel (n / 10) ++ [digitChar (n % 10)]

/-- Decimal digits of `n`, most significant first (Python `str(n)` for a
non-negative integer). -/
def natChars (n : Nat) : List Char := natCharsAux (n + 1) n

/-- Python `str(n)` for a natural number. -/
def natStr (n : Nat) : String := String.mk (natChars n)

/-- Python `"%d" % i` for an integer. -/
def intStr (i : Int) : String :=
  if i < 0 then "-" ++ natStr i.natAbs else natStr i.natAbs

/-- Accumulator pass of decimal parsing: consume digit characters. -/
def digitsValGo (acc : Nat) : List Char → Option Nat
  | [] => some acc
  | c :: t => if c.isDigit then digitsValGo (acc * 10 + (c.toNat - 48)) t else none

/-- Value of a non-empty all-digit character list, else `none`. -/
def digitsVal : List Char → Option Nat
  | [] => none
  | c :: t => digitsValGo 0 (c :: t)

/-- Python `int(s)` (sign plus decimal digits; anything else raises). -/
def pyInt (s : String) : Option Int :=
  match s.data with
  | [] => none
  | c :: t =>
    if c = '-' then (digitsVal t).map (fun v => -(v : Int))
    else if c = '+' then (digitsVal t).map (fun v => (v : Int))
    else (digitsVal (c :: t)).map (fun v => (v : Int))

/-- Fractional digits contribute `v / 10 ^ count`. -/
def fracVal (l : List Char) : ℚ :=
  match digitsValGo 0 l with
  | some v => (v : ℚ) / (10 : ℚ) ^ l.length
  | none => 0

/-- All characters are decimal digits. -/
def allDigits (l : List Char) : Bool := l.all (·.isDigit)

/-- Exponent part of a Python float literal: optional sign plus digits. -/
def pyExp : List Char → Option Int
  | [] => none
  | c :: t =>
    if c = '-' then (digitsVal t).map (fun v => -(v : Int))
    else if c = '+' then (digitsVal t).map (fun v => (v : Int))
    else (digitsVal (c :: t)).map (fun v => (v : Int))

/-- Python `float(s)` on a decimal literal: optional sign, digits with an
optional fractional part, optional decimal exponent.  (Special forms such as
`inf`/`nan` are not needed by the repository's data and are not modelled.) -/
def pyFloatCore (l : List Char) : Option ℚ :=
  let ip := l.takeWhile (·.isDigit)
  let rest := l.dropWhile (·.isDigit)
  match rest with
  | [] => if ip = [] then none else (digitsValGo 0 ip).map (fun v => (v : ℚ))
  | '.' :: r2 =>
    let fp := r2.takeWhile (·.isDigit)
    let rest2 := r2.dropWhile (·.isDigit)
    if ip = [] ∧ fp = [] then none
    else
      let base : ℚ := ((digitsValGo 0 ip).getD 0 : Nat) + fracVal fp
      match rest2 with
      | [] => some base
      | 'e' :: r3 => (pyExp r3).map (fun e => base * (10 : ℚ) ^ e)
      | 'E' :: r3 => (pyExp r3).map (fun e => base * (10 : ℚ) ^ e)
      | _ => none
  | 'e' :: r3 =>
    if ip = [] then none
    else (pyExp r3).map (fun e => (((digitsValGo 0 ip).getD 0 : Nat) : ℚ) * (10 : ℚ) ^ e)
  | 'E' :: r3 =>
    if ip = [] then none
    else (pyExp r3).map (fun e => (((digitsValGo 0 ip).getD 0 : Nat) : ℚ) * (10 : ℚ) ^ e)
  | _ => none

/-- Python `float(s)` with sign handling. -/
def pyFloat (s : String) : Option ℚ :=
  match s.data with
  | [] => none
  | c :: t =>
    if c = '-' then (pyFloatCore t).map (fun q => -q)
    else if c = '+' then pyFloatCore t
    else pyFloatCore (c :: t)

/-! Numpy dtype codes used by `ply.py` (`i1`,`u1`,`b1`,`i2`,`u2`,`i4`,`u4`,
`f4`,`f8`, plus the 8-byte integer and the `object` dtype that pandas gives a
`DataFrame` built from `None`). -/

inductive NpDtype
  | i1 | u1 | b1 | i2 | u2 | i4 | u4 | i8 | f4 | f8 | ob
deriving DecidableEq, Repr

/-- Width in bytes of a fixed-width dtype (`ob` has no payload width; it only
occurs in empty frames that serialise to nothing). -/
def NpDtype.width : NpDtype → Nat
  | .i1 | .u1 | .b1 => 1
  | .i2 | .u2 => 2
  | .i4 | .u4 | .f4 => 4
  | .i8 | .f8 => 8
  | .ob => 0

/-- `str(dtype)` as pandas prints it (used by `describe_element` to pick the
first letter). -/
def NpDtype.pandasName : NpDtype → String
  | .i1 => "int8"
  | .u1 => "uint8"
  | .b1 => "bool"
  | .i2 => "int16"
  | .u2 => "uint16"
  | .i4 => "int32"
  | .u4 => "uint32"
  | .i8 => "int64"
  | .f4 => "float32"
  | .f8 => "float64"
  | .ob => "object"

/-- The `ply_dtypes` pair list exactly as written in the source, in order;
note the two entries for `uchar` (`b1` then `u1`). -/
def ply_dtypes : List (String × NpDtype) :=
  [("int8", .i1), ("char", .i1), ("uint8", .u1), ("uchar", .b1), ("uchar", .u1),
   ("int16", .i2), ("short", .i2), ("uint16", .u2), ("ushort", .u2),
   ("int32", .i4), ("int", .i4), ("uint32", .u4), ("uint", .u4),
   ("float32", .f4), ("float", .f4), ("float64", .f8), ("double", .f8)]

/-- Lookup in a Python `dict` built from a pair list: later pairs override
earlier ones, exactly as `dict([...])` does. -/
def dictLookup (ps : List (String × NpDtype)) (k : String) : Option NpDtype :=
  ps.foldl (fun acc p => if p.1 = k then some p.2 else acc) none

/-- `valid_formats`: storage format token to byte-order prefix. -/
def valid_formats : List (String × String) :=
  [("ascii", ""), ("binary_big_endian", ">"), ("binary_little_endian", "<")]

/-- Lookup for `valid_formats` (ordinary dict semantics, no duplicates). -/
def fmtLookup (ps : List (String × String)) (k : String) : Option String :=
  ps.foldl (fun acc p => if p.1 = k then some p.2 else acc) none

/-- The running platform's byte-order prefix, `sys_byteorder` (little-endian
host). -/
def sys_byteorder : String := "<"

/-! Byte-level serialisation.  `encLE w v` is the `w`-byte little-endian
encoding of the bit pattern `v`; `lePat` reads a byte list back as a
little-endian pattern. -/

def encLE : Nat → Nat → List Nat
  | 0, _ => []
  | w + 1, v => (v % 256) :: encLE w (v / 256)

def lePat : List Nat → Nat
  | [] => 0
  | b :: t => b + 256 * lePat t

structure NdArray where
  dtype : NpDtype
  rows : List (List Nat)
deriving DecidableEq, Repr

structure PDFrame where
  cols : List (String × NpDtype)
  rows : List (List Nat)
deriving DecidableEq, Repr

/-- Effectful map over a list (the shape of every Python loop in the
source that builds a list and can raise). -/
def mapE {A B : Type} (f : A → Except String B) : List A → Except String (List B)
  | [] => .ok []
  | a :: t => do
    let b ← f a
    let bs ← mapE f t
    .ok (b :: bs)

/-- `pd.DataFrame(a, columns=names)`: `None` becomes an *empty* frame with
`object`-dtype columns (this is why the later `is not None` tests in
`write_ply` are always true); an array must have rows matching the column
count, else pandas raises. -/
def mkDF (a : Option NdArray) (names : List String) : Except String PDFrame :=
  match a with
  | none => .ok ⟨names.map (fun n => (n, NpDtype.ob)), []⟩
  | some arr =>
    if arr.rows.all (fun r => r.length = names.length) then
      .ok ⟨names.map (fun n => (n, arr.dtype)), arr.rows⟩
    else .error "ValueError: Shape of passed values does not match columns"

/-- `property_formats` from `describe_element`. -/
def property_formats : List (Char × String) := [('f', "float"), ('u', "uchar"), ('i', "int")]

def charLookup (ps : List (Char × String)) (k : Char) : Option String :=
  ps.foldl (fun acc p => if p.1 = k then some p.2 else acc) none

/-- `describe_element(name, df)`: the `element` line, then either the fixed
face list-property line or one scalar property line per column whose type
name is chosen by the first letter of the column's dtype string (a `KeyError`
for any other storage kind). -/
def describe_element (name : String) (df : PDFrame) : Except String (List String) :=
  let el := "element " ++ name ++ " " ++ natStr df.rows.length
  if name = "face" then
    .ok [el, "property list uchar int vertex_indices"]
  else do
    let props ← mapE (fun c =>
      match charLookup property_formats ((c.2.pandasName).data.headD ' ') with
      | some f => Except.ok ("property " ++ f ++ " " ++ c.1)
      | none => Except.error "KeyError: dtype kind not in property_formats") df.cols
    .ok (el :: props)

/-- Everything `write_ply` puts on disk: the final filename, the textual
header lines, and the two DataFrames whose records are appended as payload
(`faceDF` already contains the inserted `n_points` column). -/
structure WrittenPly where
  name : String
  header : List String
  vertexDF : PDFrame
  faceDF : PDFrame
  asText : Bool
deriving DecidableEq, Repr

/-- One record of `df.to_records(index=False).tofile(...)`: each cell encoded
little-endian (native order of the writing platform) at its column's width. -/
def rowBytes (cols : List (String × NpDtype)) (r : List Nat) : List Nat :=
  (cols.zip r).foldr (fun p acc => encLE p.1.2.width p.2 ++ acc) []

/-- Whether a frame's record dtype has an object field. -/
def hasObjectCol (df : PDFrame) : Bool :=
  df.cols.any (fun c => c.2 = NpDtype.ob)

/-- The payload-writing stage of `write_ply` (lines 211-227), after the header
is on disk.  In text mode the two `to_csv` appends always succeed (an empty
frame appends nothing).  In binary mode `to_records(index=False).tofile(ply)`
raises `OSError: cannot write object arrays to a file in binary mode` as soon
as the record dtype has an object field — the flag check precedes any size
check, so even a zero-row object frame raises; `points` is written first. -/
def writeRecords (name : String) (header : List String) (pointsDF meshDF : PDFrame)
    (asText : Bool) : Except String WrittenPly :=
  if asText then .ok ⟨name, header, pointsDF, meshDF, asText⟩
  else if hasObjectCol pointsDF then
    .error "OSError: cannot write object arrays to a file in binary mode"
  else if hasObjectCol meshDF then
    .error "OSError: cannot write object arrays to a file in binary mode"
  else .ok ⟨name, header, pointsDF, meshDF, asText⟩

/-- `pd.concat([points, colors], axis=1)` when colors are supplied. -/
def concatColors (pointsDF : PDFrame) (colors : Option NdArray) :
    Except String PDFrame :=
  match colors with
  | none => .ok pointsDF
  | some c => do
    let cdf ← mkDF (some c) ["red", "green", "blue"]
    -- pd.concat aligns on the index; modelled for the equal-length case
    if cdf.rows.length = pointsDF.rows.length then
      .ok (PDFrame.mk (pointsDF.cols ++ cdf.cols)
        ((pointsDF.rows.zip cdf.rows).map (fun p => p.1 ++ p.2)))
    else .error "concat of colors with mismatched length"

/-- `write_ply(filename, points, mesh, colors, as_text)` (ply.py lines
163-229).  Lines 164-165 unconditionally rebuild `points` and `mesh` as
DataFrames, so a `None` argument becomes an empty frame and both
`is not None` tests below always succeed.  The platform is little-endian, so
the binary format line is `format binary_little_endian 1.0`.  The header is
written first in text mode; the payload stage (`writeRecords`) then raises in
binary mode whenever either rebuilt frame still has object-dtype columns. -/
def write_ply (filename : String) (points mesh colors : Option NdArray)
    (asText : Bool) : Except String WrittenPly := do
  let pointsDF ← mkDF points ["x", "y", "z"]
  let meshDF ← mkDF mesh ["v1", "v2", "v3"]
  let pointsDF ← concatColors pointsDF colors
  let fname := if strEnds filename "ply" then filename else filename ++ ".ply"
  let vhdr ← describe_element "vertex" pointsDF
  -- mesh.insert(loc=0, column="n_points", value=3); astype("u1")
  let meshDF : PDFrame :=
    ⟨("n_points", NpDtype.u1) :: meshDF.cols, meshDF.rows.map (fun r => 3 :: r)⟩
  let fhdr ← describe_element "face" meshDF
  let header := ["ply",
    if asText then "format ascii 1.0" else "format binary_little_endian 1.0"]
    ++ vhdr ++ fhdr ++ ["end_header"]
  writeRecords fname header pointsDF meshDF asText

/-! The reader.  A PLY file on disk is its header/text lines plus the raw
bytes that follow the header (`read_ply` reads lines, records `ply.tell()`
after `end_header`, and for binary formats seeks there and reads raw
records). -/

structure PFile where
  lines : List String
  bytes : List Nat
deriving DecidableEq, Repr

/-- One parsed `property` declaration: field name, byte-order prefix (empty
for ascii, else the file's `ext`), and element dtype. -/
structure PropEntry where
  pname : String
  ext : String
  dt : NpDtype
deriving DecidableEq, Repr

/-- State of the header scan loop: the current element `name` (a plain local
variable in the source, unbound before the first `element` line), the two
sizes, the `dtypes` defaultdict, and the header line counter `count`. -/
structure ScanState where
  curName : Option String
  pointsSize : Option Int
  meshSize : Option Int
  dtypes : List (String × List PropEntry)
  count : Nat
deriving DecidableEq, Repr

def initScan : ScanState := ⟨none, none, none, [], 2⟩

/-- `dtypes[k].append(v)` on a `defaultdict(list)`. -/
def dtAppend (d : List (String × List PropEntry)) (k : String) (v : PropEntry) :
    List (String × List PropEntry) :=
  match d with
  | [] => [(k, [v])]
  | (k', vs) :: t => if k' = k then (k', vs ++ [v]) :: t else (k', vs) :: dtAppend t k v

def dtAppendMany (d : List (String × List PropEntry)) (k : String) :
    List PropEntry → List (String × List PropEntry)
  | [] => d
  | v :: vs => dtAppendMany (dtAppend d k v) k vs

/-- `dtypes[k]` as a read (missing key yields the empty list). -/
def dtGet (d : List (String × List PropEntry)) (k : String) : List PropEntry :=
  match d with
  | [] => []
  | (k', vs) :: t => if k' = k then vs else dtGet t k

/-- The body of the header scan loop for one line (ply.py lines 65-100):
`element` lines (substring test) set the current name and a size; `property`
lines append to `dtypes[name]`, with the `list` token (a token of the split
line) introducing the four fields `n_points`,`v1`,`v2`,`v3`.  Python errors
(`NameError` for an unbound `name`, `IndexError` for missing tokens,
`KeyError` for unknown type names, `ValueError` from `int(...)`) are modelled
as `Except.error`, in the evaluation order of the source.  `count += 1` runs
on every iteration. -/
def processLine (fmt ext : String) (st : ScanState) (l : String) :
    Except String ScanState := do
  let st' ←
    if strHasSub l "element" then do
      let toks := wsSplit l
      let nm ← match toks.get? 1 with
        | some x => Except.ok x
        | none => Except.error "IndexError: element line"
      let szTok ← match toks.get? 2 with
        | some x => Except.ok x
        | none => Except.error "IndexError: element line"
      let sz ← match pyInt szTok with
        | some x => Except.ok x
        | none => Except.error "ValueError: invalid literal for int"
      Except.ok { st with
        curName := some nm,
        pointsSize := if nm = "vertex" then some sz else st.pointsSize,
        meshSize := if nm = "face" then some sz else st.meshSize }
    else if strHasSub l "property" then do
      let toks := wsSplit l
      let nm ← match st.curName with
        | some x => Except.ok x
        | none => Except.error "NameError: name is not defined"
      if toks.contains "list" then do
        let t2 ← match toks.get? 2 with
          | some x => Except.ok x
          | none => Except.error "IndexError: property list line"
        let d2 ← match dictLookup ply_dtypes t2 with
          | some x => Except.ok x
          | none => Except.error "KeyError: unknown ply dtype"
        let t3 ← match toks.get? 3 with
          | some x => Except.ok x
          | none => Except.error "IndexError: property list line"
        let d3 ← match dictLookup ply_dtypes t3 with
          | some x => Except.ok x
          | none => Except.error "KeyError: unknown ply dtype"
        let e := if fmt = "ascii" then "" else ext
        let four : List PropEntry :=
          [⟨"n_points", e, d2⟩, ⟨"v1", e, d3⟩, ⟨"v2", e, d3⟩, ⟨"v3", e, d3⟩]
        Except.ok { st with dtypes := dtAppendMany st.dtypes nm four }
      else do
        let t2 ← match toks.get? 2 with
          | some x => Except.ok x
          | none => Except.error "IndexError: property line"
        let t1 ← match toks.get? 1 with
          | some x => Except.ok x
          | none => Except.error "IndexError: property line"
        let d1 ← match dictLookup ply_dtypes t1 with
          | some x => Except.ok x
          | none => Except.error "KeyError: unknown ply dtype"
        let e := if fmt = "ascii" then "" else ext
        Except.ok { st with dtypes := dtAppend st.dtypes nm ⟨t2, e, d1⟩ }
    else
      Except.ok st
  Except.ok { st' with count := st'.count + 1 }

/-- The header scan loop (`while b"end_header" not in line and line != b""`).
Reaching end of file makes `readline` return the empty string: the loop body
runs once more (only `count += 1` has an effect) and the loop then exits
*without* raising. -/
def scanLines (fmt ext : String) (st : ScanState) : List String → Except String ScanState
  | [] => Except.ok { st with count := st.count + 1 }
  | l :: rest => do
    let st' ← processLine fmt ext st l
    if strHasSub l "end_header" then Except.ok st' else scanLines fmt ext st' rest

/-- The header phase of `read_ply` (lines 48-103): the first line must
contain `ply` (substring test), the second line's second token selects the
byte-order prefix via `valid_formats`, then the scan loop runs over the
remaining lines. -/
def readHeader (f : PFile) : Except String (String × String × ScanState) := do
  let l0 := (f.lines.get? 0).getD ""
  if strHasSub l0 "ply" then do
    let l1 := (f.lines.get? 1).getD ""
    let fmt ← match (wsSplit l1).get? 1 with
      | some x => Except.ok x
      | none => Except.error "IndexError: format line"
    let ext ← match fmtLookup valid_formats fmt with
      | some x => Except.ok x
      | none => Except.error "KeyError: unknown format"
    let st ← scanLines fmt ext initScan (f.lines.drop 2)
    Except.ok (fmt, ext, st)
  else
    Except.error "ValueError: The file does not start whith the word ply"

/-- Tables returned by `read_ply`: a binary read yields bit-pattern cells, an
ascii read yields numbers parsed from decimal text. -/
structure BinTable where
  cols : List String
  rows : List (List Nat)
deriving DecidableEq, Repr

structure AscTable where
  cols : List String
  rows : List (List ℚ)
deriving DecidableEq, Repr

inductive PTable
  | bin (t : BinTable)
  | asc (t : AscTable)
deriving DecidableEq, Repr

def PTable.cols : PTable → List String
  | .bin t => t.cols
  | .asc t => t.cols

/-- The `data` dict: `points` always, `mesh` when a face element exists. -/
structure PlyData where
  points : PTable
  mesh : Option PTable
deriving DecidableEq, Repr

/-- Field names may not repeat in a numpy structured dtype or in pandas
`names=`. -/
def dupFree : List String → Bool
  | [] => true
  | x :: t => !(t.contains x) && dupFree t

/-- Decode one field: take `w` bytes interpreting them in the entry's byte
order (`>` is big-endian, anything else is native little-endian). -/
def decVal (ext : String) (w : Nat) (bs : List Nat) : Nat × List Nat :=
  (if ext = ">" then lePat (bs.take w).reverse else lePat (bs.take w), bs.drop w)

def entriesWidth (es : List PropEntry) : Nat :=
  es.foldr (fun e a => e.dt.width + a) 0

/-- Decode one packed record according to the field list. -/
def decRecord (ext : String) (es : List PropEntry) (bs : List Nat) :
    List Nat × List Nat :=
  match es with
  | [] => ([], bs)
  | e :: t =>
    let (v, r1) := decVal ext e.dt.width bs
    let (vs, r2) := decRecord ext t r1
    (v :: vs, r2)

/-- Decode `k` packed records (`np.fromfile` reads as many complete records
as requested once availability is known). -/
def decRecords (ext : String) (es : List PropEntry) : Nat → List Nat →
    List (List Nat) × List Nat
  | 0, bs => ([], bs)
  | k + 1, bs =>
    let (r, r1) := decRecord ext es bs
    let (rs, r2) := decRecords ext es k r1
    (r :: rs, r2)

/-- `df.drop(nm, axis=1)`: removes every column named `nm` (raises `KeyError`
when absent). -/
def dropCol (nm : String) (t : BinTable) : Except String BinTable :=
  if t.cols.contains nm then
    .ok ⟨t.cols.filter (fun c => !(c == nm)),
      t.rows.map (fun r => ((t.cols.zip r).filter (fun p => !(p.1 == nm))).map (fun p => p.2))⟩
  else .error "KeyError: column not found"

/-- The binary payload phase (lines 146-158).  `np.fromfile` reads
`min(count, available)` complete records; a `None` count (no matching
`element` line) is a `TypeError`.  When the file's byte order differs from
the platform's, the source applies `byteswap().newbyteorder()`, which swaps
the stored bytes *and* flips the declared order — numerically the identity on
every field (the ext-prefixed dtype already decoded the declared order), so
no further transformation appears here. -/
def readBinaryBody (f : PFile) (st : ScanState) : Except String PlyData := do
  let ventries := dtGet st.dtypes "vertex"
  if !(dupFree (ventries.map (fun e => e.pname))) then
    .error "ValueError: duplicate field names"
  else do
    let recW := entriesWidth ventries
    if recW = 0 then .error "ValueError: empty dtype" else do
    let psize ← match st.pointsSize with
      | some n => Except.ok n
      | none => Except.error "TypeError: count is None"
    let ext := (ventries.headD ⟨"", "", .u1⟩).ext
    let avail := f.bytes.length / recW
    let want := if psize < 0 then avail else min psize.toNat avail
    let (prows, rest) := decRecords ext ventries want f.bytes
    let ptable : BinTable := ⟨ventries.map (fun e => e.pname), prows⟩
    match st.meshSize with
    | none => Except.ok ⟨PTable.bin ptable, none⟩
    | some msize => do
      let fentries := dtGet st.dtypes "face"
      if !(dupFree (fentries.map (fun e => e.pname))) then
        .error "ValueError: duplicate field names"
      else do
        let frecW := entriesWidth fentries
        if frecW = 0 then .error "ValueError: empty dtype" else do
        let favail := rest.length / frecW
        let fwant := if msize < 0 then favail else min msize.toNat favail
        let (frows, _) := decRecords ext fentries fwant rest
        let ftable ← dropCol "n_points" ⟨fentries.map (fun e => e.pname), frows⟩
        Except.ok ⟨PTable.bin ptable, some (PTable.bin ftable)⟩

/-- numpy `astype` on a parsed ascii cell: float dtypes keep the value,
integer dtypes truncate toward zero and wrap to the dtype's range (value
level model; ascii cell values are not inspected by any property below). -/
def castQ (d : NpDtype) (q : ℚ) : ℚ :=
  match d with
  | .f4 | .f8 | .ob => q
  | .b1 => if q = 0 then 0 else 1
  | _ =>
    let t : Int := if q < 0 then -((-q).floor) else q.floor
    let b := 8 * d.width
    match d with
    | .u1 | .u2 | .u4 => ((t % (2 ^ b : Int) + 2 ^ b) % (2 ^ b : Int) : Int)
    | _ => ((t + 2 ^ (b - 1)) % (2 ^ b : Int) + 2 ^ b) % (2 ^ b : Int) - 2 ^ (b - 1)

/-- One data line of `pd.read_csv(..., sep=" ", header=None)`: split on
single spaces, one cell per declared column (modelled for lines whose token
count matches the schema; pandas' index-promotion and NaN-filling for ragged
lines is out of the repository's data range and modelled as an error). -/
def parseCsvLine (n : Nat) (l : String) : Except String (List ℚ) := do
  let toks := sepSplit l
  if toks.length = n then
    mapE (fun t =>
      match pyFloat t with
      | some q => Except.ok q
      | none => Except.error "ValueError: could not convert string to float") toks
  else Except.error "ParserError: unexpected number of fields"

/-- The ascii payload phase (lines 107-144): the vertex block is parsed with
`skiprows=count` and `skipfooter=mesh_size`, every cell cast to its declared
dtype; the face block is parsed from `count + points_size` on with
`usecols=[1, 2, 3]` (the list-count column is never read) and names taken
from `dtypes["face"]` minus its first entry. -/
def readAsciiBody (f : PFile) (st : ScanState) : Except String PlyData := do
  let ventries := dtGet st.dtypes "vertex"
  let names := ventries.map (fun e => e.pname)
  if !(dupFree names) then .error "ValueError: duplicate names" else do
  let bottom := match st.meshSize with
    | none => 0
    | some m => m.toNat
  let after := f.lines.drop st.count
  let mid := after.take (after.length - bottom)
  if mid.isEmpty then .error "EmptyDataError: no columns to parse" else do
  let prows ← mapE (parseCsvLine names.length) mid
  let prows := prows.map (fun r => (ventries.zip r).map (fun p => castQ p.1.dt p.2))
  let ptable : AscTable := ⟨names, prows⟩
  match st.meshSize with
  | none => Except.ok ⟨PTable.asc ptable, none⟩
  | some _ => do
    let psize ← match st.pointsSize with
      | some n => Except.ok n
      | none => Except.error "TypeError: unsupported operand"
    let fentries := dtGet st.dtypes "face"
    let fnames := (fentries.map (fun e => e.pname)).drop 1
    if fnames.length ≠ 3 then .error "ValueError: names do not match usecols" else do
    if !(dupFree fnames) then .error "ValueError: duplicate names" else do
    let after2 := f.lines.drop (st.count + psize.toNat)
    if after2.isEmpty then .error "EmptyDataError: no columns to parse" else do
    let frows ← mapE (fun l => do
      let toks := sepSplit l
      let cells ← mapE (fun i =>
        match toks.get? i with
        | some t => Except.ok t
        | none => Except.error "ParserError: missing field") [1, 2, 3]
      mapE (fun t =>
        match pyFloat t with
        | some q => Except.ok q
        | none => Except.error "ValueError: could not convert string to float") cells) after2
    let frows := frows.map (fun r => ((fentries.drop 1).zip r).map (fun p => castQ p.1.dt p.2))
    Except.ok ⟨PTable.asc ptable, some (PTable.asc ⟨fnames, frows⟩)⟩

/-- `read_ply(filename)` (lines 36-160) over the file model. -/
def read_ply (f : PFile) : Except String PlyData := do
  let (fmt, _, st) ← readHeader f
  if fmt = "ascii" then readAsciiBody f st else readBinaryBody f st

structure Store where
  mem : Nat → List (List Int)
  next : Nat

/-- Allocate a fresh array holding `v` (`np.copy`). -/
def Store.alloc (s : Store) (v : List (List Int)) : Store × Nat :=
  ({ mem := fun i => if i = s.next then v else s.mem i, next := s.next + 1 }, s.next)

/-- `arr += 1`: elementwise in-place increment of one array. -/
def Store.addOne (s : Store) (j : Nat) : Store :=
  { s with mem := fun i => if i = j then (s.mem j).map (fun r => r.map (· + 1)) else s.mem i }

/-- `"%f"` formatting used for `v`/`vt` lines: six decimal places.  The model
truncates the scaled magnitude; the exact C rounding mode of `%f` is not
observed by any property below. -/
def fmt6 (q : ℚ) : String :=
  let scaled := (|q| * 1000000).floor.toNat
  (if q < 0 then "-" else "") ++ natStr (scaled / 1000000) ++ "." ++
    String.mk (List.replicate (6 - (natChars (scaled % 1000000)).length) '0') ++
    natStr (scaled % 1000000)

/-- One OBJ face line: `f v1/t1/t1 v2/t2/t2 v3/t3/t3` (the texture index is
reused in the normal slot). -/
def objFaceLine (v1 v2 v3 t1 t2 t3 : Int) : String :=
  "f " ++ intStr v1 ++ "/" ++ intStr t1 ++ "/" ++ intStr t1 ++ " " ++
    intStr v2 ++ "/" ++ intStr t2 ++ "/" ++ intStr t2 ++ " " ++
    intStr v3 ++ "/" ++ intStr t3 ++ "/" ++ intStr t3

/-- `write_obj(obj_path, v_arr, vt_arr, tri_v_arr, tri_t_arr)` (lines
259-290).  Both triangle arrays are copied (`np.copy`), the copies are
incremented in place, and the face lines are written from the incremented
copies; the out-of-range UV check only prints a message and does not affect
the output.  The result is the final store and the written lines. -/
def write_obj (s : Store) (vArr vtArr : List (List ℚ)) (triVId triTId : Nat) :
    Except String (Store × List String) := do
  let (s1, cpV) := s.alloc (s.mem triVId)
  let (s2, cpT) := s1.alloc (s1.mem triTId)
  let vLines ← mapE (fun r =>
    match r with
    | [x, y, z] => Except.ok ("v " ++ fmt6 x ++ " " ++ fmt6 y ++ " " ++ fmt6 z)
    | _ => Except.error "ValueError: cannot unpack") vArr
  let vtLines ← mapE (fun r =>
    match r with
    | [u, v] => Except.ok ("vt " ++ fmt6 u ++ " " ++ fmt6 v)
    | _ => Except.error "ValueError: cannot unpack") vtArr
  let s3 := s2.addOne cpV
  let s4 := s3.addOne cpT
  let fLines ← mapE (fun p =>
    match p with
    | ([v1, v2, v3], [t1, t2, t3]) => Except.ok (objFaceLine v1 v2 v3 t1 t2 t3)
    | _ => Except.error "ValueError: cannot unpack") ((s4.mem cpV).zip (s4.mem cpT))
  Except.ok (s4, "mtllib test.mtl" :: (vLines ++ vtLines ++ fLines))

/-- One `v ` line of an OBJ file: tokens after the tag via `split(" ")`
(single-space separator, empty fields preserved), the first three parsed as
floats. -/
def parseVLine (l : String) : Except String (List ℚ) := do
  let toks := (sepSplit l).drop 1
  let cells ← mapE (fun i =>
    match toks.get? i with
    | some t => Except.ok t
    | none => Except.error "IndexError: list index out of range") [0, 1, 2]
  mapE (fun t =>
    match pyFloat t with
    | some q => Except.ok q
    | none => Except.error "ValueError: could not convert string to float") cells

/-- `read_obj(obj_path)` (lines 293-301): keep exactly the lines starting
with `"v "`, in order, and parse the first three tokens after the tag. -/
def read_obj : List String → Except String (List (List ℚ))
  | [] => Except.ok []
  | l :: rest =>
    if strStarts l "v " then do
      let v ← parseVLine l
      let vs ← read_obj rest
      Except.ok (v :: vs)
    else read_obj rest

/-! Camera rig configuration (`src/camera/setup_single_camera.py`): three
module-level numeric literals, defined once and never assigned again
anywhere in the repository.  The Python literal `0.4` is the decimal value
two fifths at the granularity observed by the module's readers. -/

def cam_height_off_ground : ℚ := 5

def feet_height_off_ground : ℚ := 2 / 5

def hori_dist_cam_feet : ℚ := 5

/-- C9: the camera configuration module defines `cam_height_off_ground = 5`,
`feet_height_off_ground = 0.4` and `hori_dist_cam_feet = 5`; the values are
plain definitions, never reassigned anywhere in the repository, so every
read yields these values. -/
theorem camera_constants_fixed :
    cam_height_off_ground = 5 ∧ feet_height_off_ground = 2 / 5 ∧
      hori_dist_cam_feet = 5 := by
  refine ⟨rfl, rfl, rfl⟩

lemma dictLookup_no_key (k : String) :
    ∀ ps : List (String × NpDtype), (∀ p ∈ ps, p.1 ≠ k) →
      ps.foldl (fun acc p => if p.1 = k then some p.2 else acc) none = none := by
  intro ps
  induction ps with
  | nil => intro _; rfl
  | cons q t ih =>
    intro h
    have hq : q.1 ≠ k := h q (by simp)
    simp only [List.foldl, if_neg hq]
    exact ih (fun p hp => h p (by simp [hp]))

/-- C10: the later duplicate `uchar` entry overrides the earlier one, so a
`uchar` property always resolves to the 1-byte unsigned code `u1`; no lookup
in `ply_dtypes` can ever produce the boolean-like code `b1`, and a scanned
`property uchar <name>` line records a `u1` field. -/
theorem uchar_reads_as_u1 :
    dictLookup ply_dtypes "uchar" = some NpDtype.u1 ∧
    (∀ k v, dictLookup ply_dtypes k = some v → v ≠ NpDtype.b1) ∧
    (∀ st nm fmt ext, st.curName = some nm →
      processLine fmt ext st "property uchar red" =
        Except.ok { st with
          dtypes := dtAppend st.dtypes nm ⟨"red", if fmt = "ascii" then "" else ext, NpDtype.u1⟩,
          count := st.count + 1 }) := by
  refine ⟨by decide, ?_, ?_⟩
  · intro k v h hv
    subst hv
    by_cases hk : ∃ p ∈ ply_dtypes, p.1 = k
    · obtain ⟨p, hp, hpk⟩ := hk
      subst hpk
      have hall : ∀ q ∈ ply_dtypes, dictLookup ply_dtypes q.1 ≠ some NpDtype.b1 := by
        decide
      exact hall p hp h
    · push_neg at hk
      rw [show dictLookup ply_dtypes k = none from dictLookup_no_key k ply_dtypes hk] at h
      exact Option.noConfusion h
  · intro st nm fmt ext hnm
    obtain ⟨cn, ps, ms, dt, cnt⟩ := st
    simp only [ScanState.curName] at hnm
    subst hnm
    rfl

/-- Witness for C10 at a concrete state. -/
theorem uchar_reads_as_u1_w :
    NpDtype.u1 ≠ NpDtype.b1 ∧
    processLine "ascii" "" ⟨some "vertex", some 1, none, [], 3⟩ "property uchar red" =
      Except.ok ⟨some "vertex", some 1, none, [("vertex", [⟨"red", "", NpDtype.u1⟩])], 4⟩ :=
  ⟨uchar_reads_as_u1.2.1 "uchar" NpDtype.u1 (by rfl),
    uchar_reads_as_u1.2.2 ⟨some "vertex", some 1, none, [], 3⟩ "vertex" "ascii" "" (by rfl)⟩

instance {α β : Type} [DecidableEq α] [DecidableEq β] : DecidableEq (Except α β) :=
  fun x y =>
    match x, y with
    | .error a, .error b =>
      if h : a = b then isTrue (by rw [h]) else isFalse (by simp [h])
    | .ok a, .ok b =>
      if h : a = b then isTrue (by rw [h]) else isFalse (by simp [h])
    | .error _, .ok _ => isFalse (by simp)
    | .ok _, .error _ => isFalse (by simp)

/-- Peel one `Except` bind from a successful computation. -/
lemma exBindOk {α β : Type} {x : Except String α} {f : α → Except String β} {b : β}
    (h : (x >>= f) = Except.ok b) : ∃ a, x = Except.ok a ∧ f a = Except.ok b := by
  cases x with
  | error e => exact absurd h (by simp [Bind.bind, Except.bind])
  | ok a => exact ⟨a, rfl, by simpa [Bind.bind, Except.bind] using h⟩

/-- Characterisation of a successful `writeRecords` call: the recorded file
is exactly the arguments, and success in binary mode needs both frames free
of object columns. -/
lemma writeRecords_ok {name : String} {header : List String}
    {pointsDF meshDF : PDFrame} {asText : Bool} {w : WrittenPly}
    (h : writeRecords name header pointsDF meshDF asText = Except.ok w) :
    w = ⟨name, header, pointsDF, meshDF, asText⟩ ∧
    (asText = true ∨
      (hasObjectCol pointsDF = false ∧ hasObjectCol meshDF = false)) := by
  unfold writeRecords at h
  split at h
  · exact ⟨(Except.ok.inj h).symm, Or.inl (by assumption)⟩
  · split at h
    · exact Except.noConfusion h
    · split at h
      · exact Except.noConfusion h
      · rename_i hp hm
        exact ⟨(Except.ok.inj h).symm,
          Or.inr ⟨by simpa using hp, by simpa using hm⟩⟩

/-- C6 counterexample: `"triply"` does not end in `".ply"`, yet `write_ply`
keeps the name unchanged, because the source tests `endswith("ply")` (no
dot); the filename is fixed before any payload is written, so the rule is
the same in both modes. -/
theorem write_ply_suffix_cex :
    (write_ply "triply" (some ⟨NpDtype.f4, [[0, 0, 0]]⟩) none none true).toOption.map
      WrittenPly.name = some "triply" ∧ "triply" ≠ "triply.ply" := by
  exact ⟨rfl, by decide⟩

/-- C6 amended: the written filename is the input path when it already ends
in the three characters `ply` (dotted or not), and the input path with
`".ply"` appended otherwise. -/
theorem write_ply_suffix_rule (filename : String) (points mesh colors : Option NdArray)
    (asText : Bool) (w : WrittenPly)
    (h : write_ply filename points mesh colors asText = Except.ok w) :
    w.name = if strEnds filename "ply" then filename else filename ++ ".ply" := by
  unfold write_ply at h
  obtain ⟨pDF, hp, h⟩ := exBindOk h
  obtain ⟨mDF, hm, h⟩ := exBindOk h
  obtain ⟨pDF2, hc, h⟩ := exBindOk h
  obtain ⟨vh, hv, h⟩ := exBindOk h
  obtain ⟨fh, hf, h⟩ := exBindOk h
  obtain ⟨hw, -⟩ := writeRecords_ok h
  rw [hw]

/-- Witness for C6 on a path without the suffix. -/
theorem write_ply_suffix_rule_w :
    (WrittenPly.mk "a.ply"
      ["ply", "format ascii 1.0", "element vertex 0", "property float x",
        "property float y", "property float z", "element face 0",
        "property list uchar int vertex_indices", "end_header"]
      ⟨[("x", NpDtype.f4), ("y", NpDtype.f4), ("z", NpDtype.f4)], []⟩
      ⟨[("n_points", NpDtype.u1), ("v1", NpDtype.ob), ("v2", NpDtype.ob),
        ("v3", NpDtype.ob)], []⟩ true).name =
      if strEnds "a" "ply" then "a" else "a" ++ ".ply" :=
  write_ply_suffix_rule "a" (some ⟨NpDtype.f4, []⟩) none none true _ rfl

/-- C5 counterexample: the no-mesh claim fails in both modes.  An ascii call
completes, but its header still contains an `element face 0` line and the
face list-property line, because line 165 turns `mesh=None` into an (empty)
DataFrame and the `mesh is not None` test is therefore always true.  The
default binary call does not complete at all: the rebuilt mesh frame has
object-dtype columns `v1`,`v2`,`v3`, and `tofile` refuses object fields even
with zero records. -/
theorem write_ply_no_mesh_cex :
    (write_ply "a.ply" (some ⟨NpDtype.f4, [[0, 0, 0]]⟩) none none true).toOption.map
      (fun w => (w.header.contains "element face 0",
        w.header.contains "property list uchar int vertex_indices",
        w.faceDF.rows.length)) = some (true, true, 0) ∧
    write_ply "a.ply" (some ⟨NpDtype.f4, [[0, 0, 0]]⟩) none none false =
      Except.error "OSError: cannot write object arrays to a file in binary mode" := by
  exact ⟨rfl, rfl⟩

/-- C5 amended: a `write_ply` call without a mesh can only complete in ascii
mode — in binary mode the rebuilt object-dtype mesh frame makes `tofile`
raise after the header is already on disk — and a completed call's file
still has a face element of row count zero: the header contains
`element face 0` and `property list uchar int vertex_indices`, with no face
payload rows. -/
theorem write_ply_no_mesh_face_block (filename : String) (points colors : Option NdArray)
    (asText : Bool) (w : WrittenPly)
    (h : write_ply filename points none colors asText = Except.ok w) :
    "element face 0" ∈ w.header ∧
    "property list uchar int vertex_indices" ∈ w.header ∧
    w.faceDF.rows = [] ∧ asText = true := by
  unfold write_ply at h
  obtain ⟨pDF, hp, h⟩ := exBindOk h
  obtain ⟨mDF, hm, h⟩ := exBindOk h
  obtain ⟨pDF2, hc, h⟩ := exBindOk h
  obtain ⟨vh, hv, h⟩ := exBindOk h
  obtain ⟨fh, hf, h⟩ := exBindOk h
  have hmDF : mDF = ⟨[("v1", NpDtype.ob), ("v2", NpDtype.ob), ("v3", NpDtype.ob)], []⟩ := by
    have : mkDF none ["v1", "v2", "v3"] =
        Except.ok ⟨[("v1", NpDtype.ob), ("v2", NpDtype.ob), ("v3", NpDtype.ob)], []⟩ := rfl
    rw [this] at hm
    exact (Except.ok.injEq _ _ ▸ congrArg id hm).symm ▸ (Except.ok.inj hm).symm
  subst hmDF
  have hfh : fh = ["element face 0", "property list uchar int vertex_indices"] := by
    have : describe_element "face"
        ⟨("n_points", NpDtype.u1) :: [("v1", NpDtype.ob), ("v2", NpDtype.ob),
          ("v3", NpDtype.ob)], List.map (fun r => 3 :: r) ([] : List (List Nat))⟩ =
        Except.ok ["element face 0", "property list uchar int vertex_indices"] := rfl
    rw [this] at hf
    exact (Except.ok.inj hf).symm
  subst hfh
  obtain ⟨hw, hmode⟩ := writeRecords_ok h
  have hat : asText = true := by
    rcases hmode with hat | ⟨-, hm2⟩
    · exact hat
    · exact absurd hm2 (by decide)
  rw [hw]
  refine ⟨?_, ?_, rfl, hat⟩
  · simp [List.mem_append]
  · simp [List.mem_append]

/-- Witness for C5 at a concrete (ascii-mode) call. -/
theorem write_ply_no_mesh_face_block_w :
    "element face 0" ∈ (WrittenPly.mk "b.ply"
      ["ply", "format ascii 1.0", "element vertex 1",
        "property float x", "property float y", "property float z",
        "element face 0", "property list uchar int vertex_indices", "end_header"]
      ⟨[("x", NpDtype.f4), ("y", NpDtype.f4), ("z", NpDtype.f4)], [[0, 0, 0]]⟩
      ⟨[("n_points", NpDtype.u1), ("v1", NpDtype.ob), ("v2", NpDtype.ob),
        ("v3", NpDtype.ob)], []⟩ true).header :=
  (write_ply_no_mesh_face_block "b.ply" (some ⟨NpDtype.f4, [[0, 0, 0]]⟩) none true _ rfl).1

/-- A successful `mapE` relates input and output pointwise. -/
lemma mapE_ok_forall {A B : Type} (f : A → Except String B) :
    ∀ l r, mapE f l = Except.ok r → List.Forall₂ (fun a b => f a = Except.ok b) l r := by
  intro l
  induction l with
  | nil =>
    intro r h
    simp only [mapE, Except.ok.injEq] at h
    rw [← h]
    exact List.Forall₂.nil
  | cons a t ih =>
    intro r h
    simp only [mapE] at h
    obtain ⟨b, hb, h⟩ := exBindOk h
    obtain ⟨bs, hbs, h⟩ := exBindOk h
    simp only [Except.ok.injEq] at h
    rw [← h]
    exact List.Forall₂.cons hb (ih bs hbs)

lemma mapE_ok_length {A B : Type} (f : A → Except String B) (l : List A) (r : List B)
    (h : mapE f l = Except.ok r) : r.length = l.length :=
  ((mapE_ok_forall f l r h).length_eq).symm

lemma forall₂_get {A B : Type} (R : A → B → Prop) :
    ∀ (l : List A) (r : List B), List.Forall₂ R l r →
      ∀ j a, l.get? j = some a → ∃ b, r.get? j = some b ∧ R a b := by
  intro l
  induction l with
  | nil => intro r _ j a ha; simp at ha
  | cons x t ih =>
    intro r hr j a ha
    cases hr with
    | cons hx ht =>
      cases j with
      | zero =>
        simp only [List.get?] at ha
        exact ⟨_, rfl, by rw [← Option.some.inj ha]; exact hx⟩
      | succ j => exact ih _ ht j a ha

lemma zip_get {A B : Type} :
    ∀ (l1 : List A) (l2 : List B) (j : Nat) (a : A) (b : B),
      l1.get? j = some a → l2.get? j = some b → (l1.zip l2).get? j = some (a, b) := by
  intro l1
  induction l1 with
  | nil => intro l2 j a b ha; simp at ha
  | cons x t ih =>
    intro l2 j a b ha hb
    cases l2 with
    | nil => simp at hb
    | cons y u =>
      cases j with
      | zero =>
        simp only [List.get?] at ha hb ⊢
        rw [← Option.some.inj ha, ← Option.some.inj hb]
      | succ j => exact ih u j a b ha hb

/-- C7: `write_obj` does not mutate the caller's triangle arrays (the `+= 1`
runs on `np.copy` copies), and each written face line carries every index
shifted up by one — in particular a stored index 0 appears as `1`. -/
theorem write_obj_shift_and_frame (s : Store) (vA vtA : List (List ℚ))
    (tvId ttId : Nat) (s' : Store) (lines : List String)
    (hv : tvId < s.next) (ht : ttId < s.next)
    (h : write_obj s vA vtA tvId ttId = Except.ok (s', lines)) :
    s'.mem tvId = s.mem tvId ∧ s'.mem ttId = s.mem ttId ∧
    (∀ j v1 v2 v3 t1 t2 t3,
      (s.mem tvId).get? j = some [v1, v2, v3] →
      (s.mem ttId).get? j = some [t1, t2, t3] →
      lines.get? (1 + vA.length + vtA.length + j) =
        some (objFaceLine (v1 + 1) (v2 + 1) (v3 + 1) (t1 + 1) (t2 + 1) (t3 + 1))) := by
  have h1 : tvId ≠ s.next := by omega
  have h2 : tvId ≠ s.next + 1 := by omega
  have h3 : ttId ≠ s.next := by omega
  have h4 : ttId ≠ s.next + 1 := by omega
  have h5 : ¬(s.next = s.next + 1) := by omega
  have h6 : ¬(s.next + 1 = s.next) := by omega
  unfold write_obj at h
  obtain ⟨vLines, hvl, h⟩ := exBindOk h
  obtain ⟨vtLines, hvtl, h⟩ := exBindOk h
  obtain ⟨fLines, hfl, h⟩ := exBindOk h
  simp only [Except.ok.injEq, Prod.mk.injEq] at h
  obtain ⟨hs4, hlines⟩ := h
  simp only [Store.alloc, Store.addOne, h3, h5, h6, if_true, if_false,
    eq_self_iff_true, ite_true, ite_false] at hs4 hfl
  refine ⟨?_, ?_, ?_⟩
  · rw [← hs4]
    simp [Store.addOne, h1, h2, h3, h5, h6]
  · rw [← hs4]
    simp [Store.addOne, h1, h2, h3, h4, h5, h6]
  · intro j v1 v2 v3 t1 t2 t3 hrv hrt
    have hzv : ((s.mem tvId).map (fun r => r.map (· + 1))).get? j =
        some [v1 + 1, v2 + 1, v3 + 1] := by
      rw [List.get?_map, hrv]; rfl
    have hzt : ((s.mem ttId).map (fun r => r.map (· + 1))).get? j =
        some [t1 + 1, t2 + 1, t3 + 1] := by
      rw [List.get?_map, hrt]; rfl
    have hz := zip_get _ _ j _ _ hzv hzt
    obtain ⟨fl, hflj, hfval⟩ := forall₂_get _ _ _ (mapE_ok_forall _ _ _ hfl) j _ hz
    have hfv : fl = objFaceLine (v1 + 1) (v2 + 1) (v3 + 1) (t1 + 1) (t2 + 1) (t3 + 1) :=
      (Except.ok.inj hfval).symm
    have hlenv : vLines.length = vA.length := mapE_ok_length _ _ _ hvl
    have hlenvt : vtLines.length = vtA.length := mapE_ok_length _ _ _ hvtl
    rw [← hlines]
    have hidx : 1 + vA.length + vtA.length + j = (vA.length + vtA.length + j) + 1 := by omega
    rw [hidx]
    simp only [List.get?]
    rw [List.get?_append_right (by simp [List.length_append, hlenv, hlenvt])]
    rw [show vA.length + vtA.length + j - (vLines ++ vtLines).length = j by
      simp [List.length_append, hlenv, hlenvt]]
    rw [hflj, hfv]

/-- Concrete two-array store for exercising `write_obj`. -/
def exStore : Store :=
  ⟨fun i => if i = 0 then [[0, 5, 2]] else if i = 1 then [[3, 4, 6]] else [], 2⟩

/-- The successful result of a concrete `write_obj` call on `exStore`. -/
def exObjResult : Store × List String :=
  match write_obj exStore [[1, 2, 3]] [[0, 1]] 0 1 with
  | Except.ok p => p
  | Except.error _ => (exStore, [])

/-- Witness for C7: the stored index 0 is written as `1`, and the caller's
arrays are untouched. -/
theorem write_obj_shift_and_frame_w :
    exObjResult.1.mem 0 = exStore.mem 0 ∧ exObjResult.1.mem 1 = exStore.mem 1 ∧
    exObjResult.2.get? 3 = some (objFaceLine 1 6 3 4 5 7) := by
  obtain ⟨a, b, c⟩ := write_obj_shift_and_frame exStore [[1, 2, 3]] [[0, 1]] 0 1
    exObjResult.1 exObjResult.2 (by norm_num [exStore]) (by norm_num [exStore]) rfl
  refine ⟨a, b, ?_⟩
  have := c 0 0 5 2 3 4 6 rfl rfl
  simpa using this

/-- A parsed `v ` line always has exactly the three cells x, y, z. -/
lemma parseVLine_shape (l : String) (r : List ℚ) (h : parseVLine l = Except.ok r) :
    ∃ x y z, r = [x, y, z] := by
  unfold parseVLine at h
  obtain ⟨cells, hc, h⟩ := exBindOk h
  have h3 : cells.length = 3 := by
    have := mapE_ok_length _ _ _ hc
    simpa using this
  have hr : r.length = 3 := by
    have := mapE_ok_length _ _ _ h
    omega
  match r, hr with
  | [x, y, z], _ => exact ⟨x, y, z, rfl⟩

/-- C8: a successful `read_obj` returns one row per line starting with
`"v "`, in file order, each row being the first three tokens of its line
parsed as floats; all other lines contribute nothing. -/
theorem read_obj_vertex_rows (lines : List String) (vs : List (List ℚ))
    (h : read_obj lines = Except.ok vs) :
    List.Forall₂ (fun l r => parseVLine l = Except.ok r ∧ ∃ x y z, r = [x, y, z])
      (lines.filter (fun l => strStarts l "v ")) vs := by
  induction lines generalizing vs with
  | nil =>
    simp only [read_obj, Except.ok.injEq] at h
    rw [← h]
    exact List.Forall₂.nil
  | cons l t ih =>
    by_cases hl : strStarts l "v " = true
    · simp only [read_obj, hl, if_true] at h
      obtain ⟨v, hv, h⟩ := exBindOk h
      obtain ⟨vs', hvs, h⟩ := exBindOk h
      simp only [Except.ok.injEq] at h
      rw [← h]
      simp only [List.filter_cons, hl, if_true]
      exact List.Forall₂.cons ⟨hv, parseVLine_shape l v hv⟩ (ih vs' hvs)
    · simp only [read_obj, hl, if_false] at h
      simp only [List.filter_cons, hl, if_false]
      exact ih vs h

/-- Witness for C8 on a file mixing `v`, `vt`, `f` and `mtllib` lines. -/
theorem read_obj_vertex_rows_w :
    List.Forall₂ (fun l r => parseVLine l = Except.ok r ∧ ∃ x y z, r = [x, y, z])
      ((["mtllib test.mtl", "v 1 2 3", "vt 0 0", "f 1/1/1 2/2/2 3/3/3",
        "v 4 5 6"]).filter (fun l => strStarts l "v "))
      [[1, 2, 3], [4, 5, 6]] :=
  read_obj_vertex_rows _ _ (by decide)

/-- C3 counterexample: a binary-format file whose header ends (EOF) before
any `end_header` line is read *successfully* — the scan loop exits silently
at EOF, and the binary payload phase returns an empty points table — so no
header-parsing error is raised. -/
theorem read_ply_missing_end_header_cex :
    (∀ l ∈ (["ply", "format binary_little_endian 1.0", "element vertex 1",
        "property float x"] : List String), strHasSub l "end_header" = false) ∧
    read_ply ⟨["ply", "format binary_little_endian 1.0", "element vertex 1",
        "property float x"], []⟩ =
      Except.ok ⟨PTable.bin ⟨["x"], []⟩, none⟩ := by
  exact ⟨by decide, by decide⟩

/-- C3 amended: reaching end of file before `end_header` is not an error:
the scan loop exits at EOF with a plain `ok` (only `count` is bumped for the
final empty `readline`), and the only way the header scan can fail is a
line-local parsing error (`processLine`) on one of the lines actually
present — never the absence of `end_header`. -/
theorem scan_missing_end_header_ok :
    (∀ fmt ext st, scanLines fmt ext st [] =
      Except.ok { st with count := st.count + 1 }) ∧
    (∀ fmt ext lines st e, scanLines fmt ext st lines = Except.error e →
      ∃ st' l, l ∈ lines ∧ processLine fmt ext st' l = Except.error e) := by
  refine ⟨fun fmt ext st => rfl, fun fmt ext lines => ?_⟩
  induction lines with
  | nil =>
    intro st e h
    exact absurd h (by simp [scanLines])
  | cons l rest ih =>
    intro st e h
    simp only [scanLines] at h
    cases hp : processLine fmt ext st l with
    | error e' =>
      rw [hp] at h
      simp only [Bind.bind, Except.bind, Except.error.injEq] at h
      exact ⟨st, l, by simp, by rw [hp, h]⟩
    | ok st' =>
      rw [hp] at h
      simp only [Bind.bind, Except.bind] at h
      by_cases hend : strHasSub l "end_header" = true
      · rw [if_pos hend] at h
        exact absurd h (by simp)
      · rw [if_neg hend] at h
        obtain ⟨st'', l', hmem, hpe⟩ := ih st' e h
        exact ⟨st'', l', by simp [hmem], hpe⟩

/-- Witness for C3 on a concrete erroring scan (the error comes from a line,
not from the missing terminator). -/
theorem scan_missing_end_header_ok_w :
    ∃ st' l, l ∈ ["property bogus x"] ∧
      processLine "ascii" "" st' l = Except.error "NameError: name is not defined" :=
  scan_missing_end_header_ok.2 "ascii" "" ["property bogus x"] initScan
    "NameError: name is not defined" (by decide)

/-- C4 counterexample: the magic check is a *substring* test.  The first
line `apply` does not contain `ply` as a whitespace token, yet the file is
read successfully (no InvalidFormat error), because `b"ply" in line` matches
inside `apply`. -/
theorem read_ply_magic_token_cex :
    ((wsSplit "apply").contains "ply") = false ∧
    read_ply ⟨["apply", "format binary_little_endian 1.0", "element vertex 1",
        "property float x", "end_header"], [0, 0, 128, 63]⟩ =
      Except.ok ⟨PTable.bin ⟨["x"], [[1065353216]]⟩, none⟩ := by
  exact ⟨by decide, by decide⟩

/-- If the head line's processing fails, the whole scan fails. -/
lemma scanLines_error_of_processLine (fmt ext : String) (st : ScanState)
    (l : String) (rest : List String) (e : String)
    (hp : processLine fmt ext st l = Except.error e) :
    scanLines fmt ext st (l :: rest) = Except.error e := by
  simp [scanLines, hp, Bind.bind, Except.bind]

/-- C4 amended: (i) a first line without the *substring* `ply` makes
`read_ply` fail with the magic-line ValueError; (ii) a scanned scalar
`property` line whose type token is not in `ply_dtypes` always makes the
header scan fail; (iii) so does a `property list` line with an unknown count
type; (iv) any header-phase failure is the result of `read_ply` itself. -/
theorem read_ply_header_rejection :
    (∀ f : PFile, strHasSub ((f.lines.get? 0).getD "") "ply" = false →
      read_ply f = Except.error "ValueError: The file does not start whith the word ply") ∧
    (∀ fmt ext st (l : String) rest t,
      strHasSub l "element" = false → strHasSub l "property" = true →
      ((wsSplit l).contains "list") = false → (wsSplit l).get? 1 = some t →
      dictLookup ply_dtypes t = none →
      ∃ e, scanLines fmt ext st (l :: rest) = Except.error e) ∧
    (∀ fmt ext st (l : String) rest t,
      strHasSub l "element" = false → strHasSub l "property" = true →
      ((wsSplit l).contains "list") = true → (wsSplit l).get? 2 = some t →
      dictLookup ply_dtypes t = none →
      ∃ e, scanLines fmt ext st (l :: rest) = Except.error e) ∧
    (∀ f e, readHeader f = Except.error e → read_ply f = Except.error e) := by
  refine ⟨?_, ?_, ?_, ?_⟩
  · intro f h
    simp only [read_ply, readHeader, h, Bool.false_eq_true, if_false,
      Bind.bind, Except.bind]
  · intro fmt ext st l rest t h1 h2 h3 h4 h5
    suffices hp : ∃ e, processLine fmt ext st l = Except.error e by
      obtain ⟨e, hp⟩ := hp
      exact ⟨e, scanLines_error_of_processLine fmt ext st l rest e hp⟩
    simp only [processLine, h1, h2, h3, Bool.false_eq_true, if_false, if_true]
    cases hcn : st.curName with
    | none => exact ⟨_, rfl⟩
    | some nm =>
      cases hg2 : (wsSplit l).get? 2 with
      | none =>
        refine ⟨"IndexError: property line", ?_⟩
        simp [Bind.bind, Except.bind]
      | some t2 =>
        refine ⟨"KeyError: unknown ply dtype", ?_⟩
        simp only [h4, h5, Bind.bind, Except.bind]
  · intro fmt ext st l rest t h1 h2 h3 h4 h5
    suffices hp : ∃ e, processLine fmt ext st l = Except.error e by
      obtain ⟨e, hp⟩ := hp
      exact ⟨e, scanLines_error_of_processLine fmt ext st l rest e hp⟩
    simp only [processLine, h1, h2, h3, Bool.false_eq_true, if_false, if_true]
    cases hcn : st.curName with
    | none => exact ⟨_, rfl⟩
    | some nm =>
      refine ⟨"KeyError: unknown ply dtype", ?_⟩
      simp only [h4, h5, Bind.bind, Except.bind]
  · intro f e h
    simp [read_ply, h, Bind.bind, Except.bind]

/-- Witness for C4 on concrete malformed inputs. -/
theorem read_ply_header_rejection_w :
    read_ply ⟨["bogus"], []⟩ =
      Except.error "ValueError: The file does not start whith the word ply" ∧
    (∃ e, scanLines "ascii" "" initScan ["property bogus x"] = Except.error e) ∧
    (∃ e, scanLines "ascii" "" initScan ["property list bogus int vertex_indices"] =
      Except.error e) ∧
    read_ply ⟨["ply", "format ascii 1.0", "element vertex 1", "property bogus x"], []⟩ =
      Except.error "KeyError: unknown ply dtype" :=
  ⟨read_ply_header_rejection.1 ⟨["bogus"], []⟩ (by decide),
   read_ply_header_rejection.2.1 "ascii" "" initScan "property bogus x" [] "bogus"
     (by decide) (by decide) (by decide) (by decide) (by decide),
   read_ply_header_rejection.2.2.1 "ascii" "" initScan
     "property list bogus int vertex_indices" [] "bogus"
     (by decide) (by decide) (by decide) (by decide) (by decide),
   read_ply_header_rejection.2.2.2
     ⟨["ply", "format ascii 1.0", "element vertex 1", "property bogus x"], []⟩
     "KeyError: unknown ply dtype" (by decide)⟩

/-- Write half of C2: the face frame always starts with the inserted
`n_points` column of dtype `u1`, every face row starts with the literal 3,
and every packed face record starts with the byte 3. -/
lemma write_face_count_field (filename : String) (points : Option NdArray)
    (mesh : NdArray) (colors : Option NdArray) (asText : Bool) (w : WrittenPly)
    (h : write_ply filename points (some mesh) colors asText = Except.ok w) :
    (∃ mcols, w.faceDF.cols = ("n_points", NpDtype.u1) :: mcols) ∧
    w.faceDF.rows = mesh.rows.map (fun r => 3 :: r) ∧
    (∀ r ∈ w.faceDF.rows, ∃ rest, rowBytes w.faceDF.cols r = 3 :: rest) := by
  unfold write_ply at h
  obtain ⟨pDF, hp, h⟩ := exBindOk h
  obtain ⟨mDF, hm, h⟩ := exBindOk h
  obtain ⟨pDF2, hc, h⟩ := exBindOk h
  obtain ⟨vh, hv, h⟩ := exBindOk h
  obtain ⟨fh, hf, h⟩ := exBindOk h
  obtain ⟨hw, -⟩ := writeRecords_ok h
  have hrows : mDF.rows = mesh.rows := by
    simp only [mkDF] at hm
    split at hm
    · rw [← Except.ok.inj hm]
    · exact absurd hm (by simp)
  rw [hw]
  refine ⟨⟨mDF.cols, rfl⟩, by rw [hrows], ?_⟩
  intro r hr
  simp only [List.mem_map] at hr
  obtain ⟨r', _, hr'⟩ := hr
  rw [← hr']
  exact ⟨rowBytes mDF.cols r', rfl⟩

/-- Read half of C2 in the ascii branch: the mesh table's columns are the
face field names minus the first (the count field is dropped via
`usecols=[1,2,3]`). -/
lemma readAscii_mesh_cols (f : PFile) (st : ScanState) (d : PlyData) (m : PTable)
    (h : readAsciiBody f st = Except.ok d) (hm : d.mesh = some m) :
    m.cols = ((dtGet st.dtypes "face").map (fun e => e.pname)).drop 1 := by
  unfold readAsciiBody at h
  cases hms : st.meshSize with
  | none =>
    simp only [hms] at h
    split at h
    · exact absurd h (by simp)
    · split at h
      · exact absurd h (by simp)
      · obtain ⟨prows, hpr, h⟩ := exBindOk h
        rw [← Except.ok.inj h] at hm
        exact absurd hm (by simp)
  | some msize =>
    simp only [hms] at h
    split at h
    · exact absurd h (by simp)
    · split at h
      · exact absurd h (by simp)
      · obtain ⟨prows, hpr, h⟩ := exBindOk h
        split at h
        · simp only [Bind.bind, Except.bind] at h
          split at h
          · exact absurd h (by simp)
          · split at h
            · exact absurd h (by simp)
            · split at h
              · exact absurd h (by simp)
              · obtain ⟨frows, hfr, h⟩ := exBindOk h
                rw [← Except.ok.inj h] at hm
                simp only [PlyData.mesh, Option.some.injEq] at hm
                rw [← hm, PTable.cols]
        · exact absurd h (by simp [Bind.bind, Except.bind])

/-- Read half of C2 in the binary branch: with exactly the four list fields
in the face element, dropping `n_points` leaves columns `v1`,`v2`,`v3`. -/
lemma readBinary_mesh_cols (f : PFile) (st : ScanState) (d : PlyData) (m : PTable)
    (h : readBinaryBody f st = Except.ok d) (hm : d.mesh = some m)
    (hface : (dtGet st.dtypes "face").map (fun e => e.pname) =
      ["n_points", "v1", "v2", "v3"]) :
    m.cols = ["v1", "v2", "v3"] := by
  unfold readBinaryBody at h
  cases hms : st.meshSize <;> cases hps : st.pointsSize <;>
    simp only [hms, hps, Bind.bind, Except.bind] at h <;>
    repeat' split at h
  all_goals try exact Except.noConfusion h
  all_goals try (rw [← Except.ok.inj h] at hm; exact Option.noConfusion hm)
  all_goals rw [← Except.ok.inj h] at hm
  all_goals simp only [PlyData.mesh, Option.some.injEq] at hm
  all_goals rw [← hm, PTable.cols]
  all_goals rename_i x2 ftable hft cond
  all_goals rw [hface] at hft
  all_goals unfold dropCol at hft
  all_goals split at hft
  all_goals first
    | (rw [← Except.ok.inj hft]; try rfl)
    | (rename_i hneg; exact absurd rfl hneg)

/-- C2 counterexample: a face element that *has* a list property but also a
further scalar property yields a mesh table with a fourth column `flag` —
not only `v1`,`v2`,`v3`. -/
theorem mesh_extra_column_cex :
    ("property list uchar int vertex_indices" ∈
      (["ply", "format binary_little_endian 1.0", "element vertex 1",
        "property float x", "element face 1",
        "property list uchar int vertex_indices", "property uchar flag",
        "end_header"] : List String)) ∧
    ((read_ply ⟨["ply", "format binary_little_endian 1.0", "element vertex 1",
        "property float x", "element face 1",
        "property list uchar int vertex_indices", "property uchar flag",
        "end_header"],
      [0, 0, 0, 0, 3, 1, 0, 0, 0, 2, 0, 0, 0, 0, 0, 0, 0, 7]⟩).toOption.bind
        PlyData.mesh).map PTable.cols = some ["v1", "v2", "v3", "flag"] ∧
    (["v1", "v2", "v3", "flag"] : List String) ≠ ["v1", "v2", "v3"] := by
  exact ⟨by decide, by decide, by decide⟩

/-- C2 amended: every mesh passed to `write_ply` gets an `n_points` column of
dtype `u1` whose value is the literal 3 in every row, and every packed face
record starts with the byte 3, regardless of the mesh's own values; on
reading, when the face element's fields are exactly the four list-property
fields, the returned mesh table has columns `v1`,`v2`,`v3` only (the count
field is discarded) in both the ascii and binary branches. -/
theorem face_count_field_and_columns :
    (∀ filename points mesh colors asText w,
      write_ply filename points (some mesh) colors asText = Except.ok w →
      (∃ mcols, w.faceDF.cols = ("n_points", NpDtype.u1) :: mcols) ∧
      w.faceDF.rows = mesh.rows.map (fun r => 3 :: r) ∧
      (∀ r ∈ w.faceDF.rows, ∃ rest, rowBytes w.faceDF.cols r = 3 :: rest)) ∧
    (∀ (f : PFile) fmt ext st d m,
      readHeader f = Except.ok (fmt, ext, st) →
      (dtGet st.dtypes "face").map (fun e => e.pname) =
        ["n_points", "v1", "v2", "v3"] →
      read_ply f = Except.ok d → d.mesh = some m →
      m.cols = ["v1", "v2", "v3"]) := by
  refine ⟨write_face_count_field, ?_⟩
  intro f fmt ext st d m hrh hface hread hmesh
  unfold read_ply at hread
  rw [hrh] at hread
  simp only [Bind.bind, Except.bind] at hread
  by_cases hfmt : fmt = "ascii"
  · rw [if_pos hfmt] at hread
    have hc := readAscii_mesh_cols f st d m hread hmesh
    rw [hc, hface]
    rfl
  · rw [if_neg hfmt] at hread
    exact readBinary_mesh_cols f st d m hread hmesh hface

/-- The result of a concrete binary `write_ply` call with a mesh. -/
def exWritten : WrittenPly :=
  match write_ply "w" (some ⟨NpDtype.f4, [[0, 0, 0]]⟩)
      (some ⟨NpDtype.i4, [[0, 1, 2]]⟩) none false with
  | Except.ok w => w
  | Except.error _ => ⟨"", [], ⟨[], []⟩, ⟨[], []⟩, false⟩

/-- A well-formed one-vertex one-face binary PLY file. -/
def stdPlyFile : PFile :=
  ⟨["ply", "format binary_little_endian 1.0", "element vertex 1",
    "property float x", "element face 1",
    "property list uchar int vertex_indices", "end_header"],
   [0, 0, 0, 0, 3, 0, 0, 0, 0, 0, 0, 0, 0, 0, 0, 0, 0]⟩

def stdScan : ScanState :=
  match readHeader stdPlyFile with
  | Except.ok t => t.2.2
  | Except.error _ => initScan

def stdData : PlyData :=
  match read_ply stdPlyFile with
  | Except.ok d => d
  | Except.error _ => ⟨PTable.bin ⟨[], []⟩, none⟩

def stdMesh : PTable :=
  match stdData.mesh with
  | some m => m
  | none => PTable.bin ⟨[], []⟩

/-- Witness for C2 at concrete calls. -/
theorem face_count_field_and_columns_w :
    (∃ mcols, exWritten.faceDF.cols = ("n_points", NpDtype.u1) :: mcols) ∧
    stdMesh.cols = ["v1", "v2", "v3"] := by
  refine ⟨(face_count_field_and_columns.1 "w" (some ⟨NpDtype.f4, [[0, 0, 0]]⟩)
    ⟨NpDtype.i4, [[0, 1, 2]]⟩ none false exWritten rfl).1, ?_⟩
  exact face_count_field_and_columns.2 stdPlyFile "binary_little_endian" "<"
    stdScan stdData stdMesh (by decide) (by decide) (by decide) (by decide)

/-! Toolkit for C1: facts about decimal printing, token splitting and
substring search on the writer's header lines. -/

